import Mathlib

/-!
Verification of the envflag configuration-resolution engine.

The definitions below are a shallow embedding of the Rust sources:
`src/store.rs` (the configuration store and its lookup algorithm, plus the
one-time initializer), `src/builder.rs` (the two-stage query builder),
`src/validators.rs` (validation predicates and boolean normalization) and
`src/lib.rs` (the convenience accessor layer).  Strings are modelled as
Lean `String`s; Rust's `HashMap<String, String>` is modelled as an
association list looked up by key; the generic typed parsing
(`T: FromStr`) is modelled by passing the parse function
`String → Option T` and a flag telling whether the target type is `bool`
(which triggers boolean normalization, exactly as the `TypeId` test in the
source does).
-/

namespace Envflag

/-! ### String helpers (models of the Rust `str` operations used) -/

/-- Model of Rust `str::trim` on the character list: drop whitespace from
both ends. -/
def trimChars (cs : List Char) : List Char :=
  ((cs.dropWhile Char.isWhitespace).reverse.dropWhile Char.isWhitespace).reverse

/-- Model of Rust `str::trim`. -/
def trimStr (s : String) : String := String.mk (trimChars s.data)

/-- ASCII lowercasing, the model of both `eq_ignore_ascii_case` comparisons
(compare lowercased forms) and `to_lowercase()` on the strings that occur
here. -/
def asciiLower (s : String) : String := String.mk (s.data.map Char.toLower)

/-- Model of Rust `str::starts_with` (case-sensitive). -/
def strStartsWith (s p : String) : Bool := List.isPrefixOf p.data s.data

/-! ### The configuration store (`src/store.rs`) -/

/-- Model of `HashMap::get` over an association list. -/
def mapGet (m : List (String × String)) (k : String) : Option String :=
  (m.find? (fun kv => kv.1 == k)).map (fun kv => kv.2)

/-- `EnvStore` from `src/store.rs`: the flat key-value map and the
configured key-space filters (the `prefixes` field). -/
structure EnvStore where
  map : List (String × String)
  prefixes : List String
deriving DecidableEq, Repr

/-- `EnvStore::from_map`: a store with no configured prefixes. -/
def EnvStore.from_map (m : List (String × String)) : EnvStore :=
  { map := m, prefixes := [] }

/-- `EnvStore::from_map_with_prefixes`: a store with the given map and
prefixes, both taken verbatim (no filtering happens here). -/
def EnvStore.from_map_with_prefixes (m : List (String × String))
    (ps : List String) : EnvStore :=
  { map := m, prefixes := ps }

/-- `EnvStore::lookup` from `src/store.rs` lines 74-92: direct lookup when
no prefixes are configured; otherwise an explicitly preferred choice is
prepended verbatim; a single configured prefix is prepended silently; two
or more without an explicit choice resolve to `none`. -/
def EnvStore.lookup (st : EnvStore) (key : String) (pp : Option String) :
    Option String :=
  if st.prefixes.isEmpty then
    mapGet st.map key
  else
    match pp with
    | some p => mapGet st.map (p ++ key)
    | none =>
      match st.prefixes with
      | [p] => mapGet st.map (p ++ key)
      | _ => none

/-! ### Lookup helper lemmas -/

theorem lookup_of_no_prefixes (st : EnvStore) (h : st.prefixes = [])
    (k : String) (pp : Option String) : st.lookup k pp = mapGet st.map k := by
  simp [EnvStore.lookup, h]

theorem lookup_of_single (st : EnvStore) (p : String)
    (h : st.prefixes = [p]) (k : String) :
    st.lookup k none = mapGet st.map (p ++ k) := by
  simp [EnvStore.lookup, h]

theorem lookup_of_multi (st : EnvStore) (h : 2 ≤ st.prefixes.length)
    (k : String) : st.lookup k none = none := by
  match hp : st.prefixes with
  | [] => rw [hp] at h; simp at h
  | [p] => rw [hp] at h; simp at h
  | p :: q :: t => simp [EnvStore.lookup, hp]

theorem lookup_of_some_pp (st : EnvStore) (h : st.prefixes ≠ [])
    (k p : String) : st.lookup k (some p) = mapGet st.map (p ++ k) := by
  have : st.prefixes.isEmpty = false := by
    simpa [List.isEmpty_iff] using h
  simp [EnvStore.lookup, this]

/-- C1: the lookup algorithm's cases as the spec states them: with zero
configured prefixes the preferred prefix is ignored and the entry for the
bare key is returned; with exactly one configured prefix `p` and no
preferred prefix the entry for `p ++ k` is returned; with two or more
configured prefixes and no preferred prefix the lookup is `none` whatever
the entries hold. -/
theorem lookup_four_case_algorithm (st : EnvStore) (k : String) :
    (st.prefixes = [] → ∀ pp : Option String, st.lookup k pp = mapGet st.map k) ∧
    (∀ p : String, st.prefixes = [p] → st.lookup k none = mapGet st.map (p ++ k)) ∧
    (2 ≤ st.prefixes.length → st.lookup k none = none) := by
  refine ⟨fun h pp => lookup_of_no_prefixes st h k pp,
    fun p h => lookup_of_single st p h k,
    fun h => lookup_of_multi st h k⟩

/-- C1 witness: the three cases evaluated on concrete stores. -/
theorem lookup_four_case_algorithm_witness :
    ((EnvStore.from_map [("PORT", "3000")]).lookup "PORT" (some "X_") =
      mapGet [("PORT", "3000")] "PORT") ∧
    ((EnvStore.from_map_with_prefixes [("APP_PORT", "3000")] ["APP_"]).lookup
      "PORT" none = mapGet [("APP_PORT", "3000")] ("APP_" ++ "PORT")) ∧
    ((EnvStore.from_map_with_prefixes [("APP_PORT", "3000")]
      ["APP_", "SVC_"]).lookup "PORT" none = none) := by
  refine ⟨(lookup_four_case_algorithm _ "PORT").1 rfl (some "X_"),
    ((lookup_four_case_algorithm _ "PORT").2.1 "APP_" rfl),
    ((lookup_four_case_algorithm _ "PORT").2.2 (by decide))⟩

/-! ### Errors (`src/error.rs`) -/

/-- `EnvflagError` from `src/error.rs`.  The `Io` and `Dotenv` payloads are
irrelevant to the claims and dropped. -/
inductive EnvflagError where
  | alreadyInitialized
  | notInitialized
  | io
  | dotenv
  | notSet (key : String)
  | ambiguousPrefix (key : String)
  | validationFailed (key : String) (value : String)
  | parseFailed (key : String) (value : String)
deriving DecidableEq, Repr

deriving instance DecidableEq for Except

/-! ### Boolean normalization and parsing (`src/validators.rs`, Rust `FromStr`) -/

/-- `normalize_bool` from `src/validators.rs` lines 44-58: trim; a
case-insensitive `true` or `false` canonicalizes; lowercased `1`/`yes`
map to `true` and `0`/`no` to `false`; anything else is returned
unchanged (the original, untrimmed string). -/
def normalize_bool (s : String) : String :=
  if asciiLower (trimStr s) = "true" then "true"
  else if asciiLower (trimStr s) = "false" then "false"
  else if asciiLower (trimStr s) = "1" ∨ asciiLower (trimStr s) = "yes" then "true"
  else if asciiLower (trimStr s) = "0" ∨ asciiLower (trimStr s) = "no" then "false"
  else s

/-- Rust `bool::from_str`: exactly `"true"` or `"false"`. -/
def parseBool (s : String) : Option Bool :=
  if s = "true" then some true else if s = "false" then some false else none

/-- Value of a decimal digit character. -/
def digitVal (c : Char) : Nat := c.toNat - 48

/-- One step of accumulating a decimal number, as Rust's integer
`from_str` does. -/
def digitStep (a : Nat) (c : Char) : Nat := a * 10 + digitVal c

/-- A nonempty all-digit character list read as a decimal number;
`none` otherwise. -/
def digitsToNat? (cs : List Char) : Option Nat :=
  if cs ≠ [] ∧ cs.all Char.isDigit = true then some (cs.foldl digitStep 0)
  else none

/-- Rust `uN::from_str` (an optional leading `+`, then nonempty digits,
overflow above `bound` is an error), with the type's maximum passed as
`bound`. -/
def parseUnsignedChars (bound : Nat) : List Char → Option Nat
  | [] => none
  | c :: rest =>
    match digitsToNat? (if c = '+' then rest else c :: rest) with
    | some n => if n ≤ bound then some n else none
    | none => none

/-- Rust `uN::from_str` on a string. -/
def parseUnsigned (bound : Nat) (s : String) : Option Nat :=
  parseUnsignedChars bound s.data

/-- Rust `iN::from_str` for any signed width (an optional sign, then
nonempty digits; a negative magnitude above `negBound = 2 ^ (N - 1)` or a
positive value above `posBound = 2 ^ (N - 1) - 1` overflows). -/
def parseSignedChars (negBound posBound : Nat) : List Char → Option Int
  | [] => none
  | c :: rest =>
    if c = '-' then
      match digitsToNat? rest with
      | some n => if n ≤ negBound then some (-(n : Int)) else none
      | none => none
    else
      match digitsToNat? (if c = '+' then rest else c :: rest) with
      | some n => if n ≤ posBound then some ((n : Int)) else none
      | none => none

/-- Rust `iN::from_str` on a string. -/
def parseSigned (negBound posBound : Nat) (s : String) : Option Int :=
  parseSignedChars negBound posBound s.data

/-- Rust `i64::from_str`: the signed parser at the `i64` bounds. -/
def parseI64 (s : String) : Option Int :=
  parseSigned (2 ^ 63) (2 ^ 63 - 1) s

/-- Decimal digit character, as Rust's integer `Display` emits them. -/
def digitChar (d : Nat) : Char := Char.ofNat (48 + d)

/-- Decimal digits, most significant first, with a structural fuel
argument (any fuel above the value itself is enough, see
`natToDigitsAux_spec`). -/
def natToDigitsAux : Nat → Nat → List Char
  | 0, _ => []
  | fuel + 1, n =>
    if n < 10 then [digitChar n]
    else natToDigitsAux fuel (n / 10) ++ [digitChar (n % 10)]

/-- Decimal digits of `n`, most significant first: the model of Rust's
`to_string` for unsigned integers. -/
def natToDigits (n : Nat) : List Char := natToDigitsAux (n + 1) n

/-- Rust `to_string` for unsigned integers. -/
def natToString (n : Nat) : String := String.mk (natToDigits n)

/-- Rust `to_string` for signed integers: a `-` sign for negatives, then
the decimal digits of the absolute value. -/
def intToString (v : Int) : String :=
  if v < 0 then String.mk ('-' :: natToDigits v.natAbs)
  else String.mk (natToDigits v.natAbs)

/-- `is_port` from `src/validators.rs` lines 82-85: the trimmed string
parses as a `u16` greater than zero. -/
def is_port (s : String) : Bool :=
  match parseUnsigned 65535 (trimStr s) with
  | some v => decide (0 < v)
  | none => false

/-! ### The query builder (`src/builder.rs`)

The two-stage builder is ephemeral: a query is fully described by the key
name, the optional explicit choice of configured namespace (`with_prefix`),
the default value (absent in required mode), the ordered validator list,
the target type's parse function and whether the target type is `bool`.
The two resolution functions below are the bodies of
`TypedKeyBuilder::get` and `KeyBuilder::required` over those data. -/

/-- `TypedKeyBuilder::get` from `src/builder.rs` lines 124-169: the
ambiguity check, the raw lookup (absent means the default is returned),
boolean normalization when the target type is `bool`, the validator chain
(first failure wins; the error carries the possibly-normalized string),
then parsing. -/
def typedGet {T : Type} (st : EnvStore) (name : String) (pp : Option String)
    (defaultVal : T) (validators : List (String → Bool))
    (parse : String → Option T) (isBool : Bool) : Except EnvflagError T :=
  if 1 < st.prefixes.length ∧ pp = none then
    .error (.ambiguousPrefix name)
  else
    match st.lookup name pp with
    | some raw =>
      let valStr := if isBool then normalize_bool raw else raw
      if validators.all (fun v => v valStr) then
        match parse valStr with
        | some v => .ok v
        | none => .error (.parseFailed name valStr)
      else .error (.validationFailed name valStr)
    | none => .ok defaultVal

/-- `KeyBuilder::required` from `src/builder.rs` lines 52-77: the
ambiguity check, the raw lookup (absent fails with `NotSet`), boolean
normalization when the target type is `bool`, then parsing.  Required
mode has no validator list. -/
def requiredGet {T : Type} (st : EnvStore) (name : String) (pp : Option String)
    (parse : String → Option T) (isBool : Bool) : Except EnvflagError T :=
  if 1 < st.prefixes.length ∧ pp = none then
    .error (.ambiguousPrefix name)
  else
    match st.lookup name pp with
    | none => .error (.notSet name)
    | some raw =>
      let valStr := if isBool then normalize_bool raw else raw
      match parse valStr with
      | some v => .ok v
      | none => .error (.parseFailed name valStr)

/-! ### The convenience accessor layer (`src/lib.rs`) -/

/-- `EnvStore::get` from `src/lib.rs` lines 205-227: lookup with no
explicit namespace choice, boolean normalization for `bool` targets, and
the default on absence or parse failure.  Total: never an error. -/
def EnvStore.get {T : Type} (st : EnvStore) (name : String) (defaultVal : T)
    (parse : String → Option T) (isBool : Bool) : T :=
  match st.lookup name none with
  | some val =>
    let v := if isBool then normalize_bool val else val
    match parse v with
    | some x => x
    | none => defaultVal
  | none => defaultVal

/-- `EnvStore::get_string` from `src/lib.rs` lines 233-237. -/
def EnvStore.get_string (st : EnvStore) (name : String) (defaultVal : String) :
    String :=
  (st.lookup name none).getD defaultVal

/-- `EnvStore::lookup_parsed` from `src/lib.rs` lines 242-262: `none` on
absence or parse failure. -/
def EnvStore.lookup_parsed {T : Type} (st : EnvStore) (name : String)
    (parse : String → Option T) (isBool : Bool) : Option T :=
  (st.lookup name none).bind (fun s =>
    parse (if isBool then normalize_bool s else s))

/-- `EnvStore::lookup_string` from `src/lib.rs` lines 267-269. -/
def EnvStore.lookup_string (st : EnvStore) (name : String) : Option String :=
  st.lookup name none

/-- `EnvStore::is_set` from `src/lib.rs` lines 273-275. -/
def EnvStore.is_set (st : EnvStore) (name : String) : Bool :=
  (st.lookup name none).isSome

/-- The `get_bool`-style convenience accessor: `EnvStore::get`
instantiated at `bool` (its `false` default makes it total with no
failure case, as §4.4 of the spec describes). -/
def get_bool (st : EnvStore) (name : String) : Bool :=
  EnvStore.get st name false parseBool true

/-! ### The one-time initializer (`src/store.rs`, `InitBuilder::init`)

The dotenv overlay and the process environment are external inputs; the
snapshot taken at step 2 of `init` enters the model as a plain list of
key-value pairs.  The filtering of step 3 (`src/store.rs` lines 180-188)
and the `OnceLock::set` publish of steps 4-5 (lines 190-199) are modelled
exactly. -/

/-- The strict filter of `InitBuilder::init` lines 180-188: with no
configured prefixes the snapshot is kept verbatim, otherwise only keys
starting with at least one configured prefix survive. -/
def initFilter (allVars : List (String × String)) (pfxs : List String) :
    List (String × String) :=
  if pfxs.isEmpty then allVars
  else allVars.filter (fun kv => pfxs.any (fun p => strStartsWith kv.1 p))

/-- The store built by `InitBuilder::init` from the post-merge environment
snapshot `allVars` and the configured prefixes. -/
def initStore (allVars : List (String × String)) (pfxs : List String) :
    EnvStore :=
  { map := initFilter allVars pfxs, prefixes := pfxs }

/-- `OnceLock::set` on the global `INSTANCE` slot (`src/store.rs` line 13
and lines 196-198): publish into an empty slot; fail with
`AlreadyInitialized` against a populated slot, leaving the occupant in
place. -/
def onceSet (slot : Option EnvStore) (st : EnvStore) :
    Option EnvStore × Except EnvflagError Unit :=
  match slot with
  | none => (some st, .ok ())
  | some old => (some old, .error .alreadyInitialized)

/-- A sequence of initialization attempts against the slot, in the order
the `OnceLock` linearizes them; returns the final slot and each attempt's
result. -/
def runInits (slot : Option EnvStore) :
    List EnvStore → Option EnvStore × List (Except EnvflagError Unit)
  | [] => (slot, [])
  | st :: rest =>
    let r := onceSet slot st
    let rs := runInits r.1 rest
    (rs.1, r.2 :: rs.2)

/-- `EnvStore::get_instance` (`src/store.rs` lines 28-30): a read of the
slot. -/
def get_instance (slot : Option EnvStore) : Except EnvflagError EnvStore :=
  match slot with
  | some st => .ok st
  | none => .error .notInitialized

/-! ### Decimal round-trip lemmas -/

theorem digitVal_digitChar (d : Nat) (h : d < 10) : digitVal (digitChar d) = d := by
  interval_cases d <;> decide

theorem isDigit_digitChar (d : Nat) (h : d < 10) :
    (digitChar d).isDigit = true := by
  interval_cases d <;> decide

theorem digit_ne_sign {c : Char} (h : c.isDigit = true) : c ≠ '+' ∧ c ≠ '-' := by
  constructor <;> rintro rfl <;> exact absurd h (by decide)

theorem natToDigitsAux_spec :
    ∀ n fuel, n < fuel →
      natToDigitsAux fuel n ≠ [] ∧
      (natToDigitsAux fuel n).all Char.isDigit = true ∧
      ∀ a, (natToDigitsAux fuel n).foldl digitStep a =
        a * 10 ^ (natToDigitsAux fuel n).length + n := by
  intro n
  induction n using Nat.strong_induction_on with
  | _ n ih =>
    intro fuel hf
    cases fuel with
    | zero => omega
    | succ f =>
      by_cases h : n < 10
      · simp only [natToDigitsAux, if_pos h]
        refine ⟨by simp, by simp [isDigit_digitChar n h], ?_⟩
        intro a
        simp only [List.foldl_cons, List.foldl_nil, List.length_singleton,
          pow_one, digitStep]
        rw [digitVal_digitChar n h]
      · have h1 : n / 10 < n := Nat.div_lt_self (by omega) (by omega)
        have h2 : n / 10 < f := by omega
        obtain ⟨hne, hall, hfold⟩ := ih (n / 10) h1 f h2
        simp only [natToDigitsAux, if_neg h]
        refine ⟨by simp, ?_, ?_⟩
        · rw [List.all_append]
          simp [hall, isDigit_digitChar (n % 10) (Nat.mod_lt _ (by omega))]
        · intro a
          rw [List.foldl_append, List.length_append, hfold a]
          simp only [List.foldl_cons, List.foldl_nil, List.length_singleton,
            digitStep]
          rw [digitVal_digitChar (n % 10) (Nat.mod_lt _ (by omega)),
            pow_succ, ← mul_assoc]
          generalize a * 10 ^ (natToDigitsAux f (n / 10)).length = t
          omega

theorem natToDigits_ne_nil (n : Nat) : natToDigits n ≠ [] :=
  (natToDigitsAux_spec n (n + 1) (by omega)).1

theorem natToDigits_all_digits (n : Nat) :
    (natToDigits n).all Char.isDigit = true :=
  (natToDigitsAux_spec n (n + 1) (by omega)).2.1

theorem natToDigits_foldl (n : Nat) :
    ∀ a, (natToDigits n).foldl digitStep a =
      a * 10 ^ (natToDigits n).length + n :=
  (natToDigitsAux_spec n (n + 1) (by omega)).2.2

theorem digitsToNat?_natToDigits (n : Nat) :
    digitsToNat? (natToDigits n) = some n := by
  rw [digitsToNat?,
    if_pos ⟨natToDigits_ne_nil n, natToDigits_all_digits n⟩,
    natToDigits_foldl n 0]
  simp

theorem natToDigits_head_digit (n : Nat) :
    ∃ c rest, natToDigits n = c :: rest ∧ c.isDigit = true := by
  obtain ⟨c, rest, hc⟩ := List.exists_cons_of_ne_nil (natToDigits_ne_nil n)
  refine ⟨c, rest, hc, ?_⟩
  have := natToDigits_all_digits n
  rw [hc, List.all_cons, Bool.and_eq_true] at this
  exact this.1

theorem parseUnsigned_natToString (bound v : Nat) (h : v ≤ bound) :
    parseUnsigned bound (natToString v) = some v := by
  obtain ⟨c, rest, hc, hd⟩ := natToDigits_head_digit v
  have hdata : (natToString v).data = c :: rest := by
    simp [natToString, hc]
  rw [parseUnsigned, hdata]
  simp only [parseUnsignedChars]
  rw [if_neg (digit_ne_sign hd).1, ← hc, digitsToNat?_natToDigits]
  simp [h]

theorem parseSigned_intToString (negBound posBound : Nat) (v : Int)
    (hlo : -(negBound : Int) ≤ v) (hhi : v ≤ (posBound : Int)) :
    parseSigned negBound posBound (intToString v) = some v := by
  obtain ⟨c, rest, hc, hd⟩ := natToDigits_head_digit v.natAbs
  by_cases hv : v < 0
  · have hdata : (intToString v).data = '-' :: natToDigits v.natAbs := by
      simp [intToString, hv]
    rw [parseSigned, hdata, hc]
    simp only [parseSignedChars, if_pos rfl]
    rw [← hc, digitsToNat?_natToDigits]
    have hb : v.natAbs ≤ negBound := by omega
    have habs : (v.natAbs : Int) = -v := by omega
    show (if v.natAbs ≤ negBound then some (-(v.natAbs : Int)) else none)
      = some v
    rw [if_pos hb, habs, neg_neg]
  · have hdata : (intToString v).data = natToDigits v.natAbs := by
      simp [intToString, hv]
    rw [parseSigned, hdata, hc]
    simp only [parseSignedChars]
    rw [if_neg (digit_ne_sign hd).2, if_neg (digit_ne_sign hd).1, ← hc,
      digitsToNat?_natToDigits]
    have hb : v.natAbs ≤ posBound := by omega
    have habs : (v.natAbs : Int) = v := by omega
    show (if v.natAbs ≤ posBound then some ((v.natAbs : Int)) else none)
      = some v
    rw [if_pos hb, habs]

/-! ### C2: ambiguity beats defaults and presence -/

/-- C2: with more than one configured prefix and no per-query override,
both the typed builder's `get` and the untyped builder's `required` fail
with `AmbiguousPrefix` carrying the queried key — whatever the entries,
the default and the validators. -/
theorem ambiguity_beats_default_and_presence {T : Type} (st : EnvStore)
    (name : String) (d : T) (vs : List (String → Bool))
    (parse : String → Option T) (isBool : Bool)
    (h : 1 < st.prefixes.length) :
    typedGet st name none d vs parse isBool =
      .error (.ambiguousPrefix name) ∧
    requiredGet st name none parse isBool =
      .error (.ambiguousPrefix name) := by
  constructor
  · simp [typedGet, h]
  · simp [requiredGet, h]

/-- C2 witness: the spec's Scenario D store, with the key present under
both configured prefixes and a default supplied. -/
theorem ambiguity_beats_default_and_presence_witness :
    typedGet (EnvStore.from_map_with_prefixes
        [("APP_PORT", "3000"), ("SVC_PORT", "4000")] ["APP_", "SVC_"])
      "PORT" none (0 : Nat) [] (parseUnsigned 65535) false =
      .error (.ambiguousPrefix "PORT") ∧
    requiredGet (EnvStore.from_map_with_prefixes
        [("APP_PORT", "3000"), ("SVC_PORT", "4000")] ["APP_", "SVC_"])
      "PORT" none (parseUnsigned 65535) false =
      (.error (.ambiguousPrefix "PORT") : Except EnvflagError Nat) :=
  ambiguity_beats_default_and_presence _ "PORT" 0 [] (parseUnsigned 65535)
    false (by decide)

/-! ### C3: absent keys, defaults and `NotSet` -/

/-- C3 counterexample: on a store with two configured prefixes and no
override, the raw lookup is absent, yet `get` with a default does not
return the default and `required` does not return `NotSet` — both return
`AmbiguousPrefix` instead, so the claim's universal statement fails. -/
theorem absent_default_counterexample :
    (EnvStore.from_map_with_prefixes [] ["APP_", "SVC_"]).lookup "PORT" none
      = none ∧
    typedGet (EnvStore.from_map_with_prefixes [] ["APP_", "SVC_"]) "PORT"
      none (8080 : Nat) [] (parseUnsigned 65535) false ≠ .ok 8080 ∧
    requiredGet (EnvStore.from_map_with_prefixes [] ["APP_", "SVC_"]) "PORT"
      none (parseUnsigned 65535) false ≠
      (.error (.notSet "PORT") : Except EnvflagError Nat) := by
  refine ⟨rfl, by decide, by decide⟩

/-- C3 (amended): unless the store has more than one configured prefix
with no override on the query (in which case both calls fail with
`AmbiguousPrefix` before looking anything up), an absent raw lookup makes
`get` return the default and `required` fail with `NotSet`; and whenever
the raw lookup is present, `required` never returns `NotSet` — a
present-but-unparseable value yields `ParseFailed` with the
possibly-normalized string. -/
theorem absent_default_amended {T : Type} (st : EnvStore) (name : String)
    (pp : Option String) (d : T) (vs : List (String → Bool))
    (parse : String → Option T) (isBool : Bool) :
    (¬(1 < st.prefixes.length ∧ pp = none) → st.lookup name pp = none →
      typedGet st name pp d vs parse isBool = .ok d ∧
      requiredGet st name pp parse isBool = .error (.notSet name)) ∧
    (∀ raw, st.lookup name pp = some raw →
      requiredGet st name pp parse isBool ≠ .error (.notSet name) ∧
      (parse (if isBool then normalize_bool raw else raw) = none →
        requiredGet st name pp parse isBool =
          .error (.parseFailed name
            (if isBool then normalize_bool raw else raw)))) := by
  constructor
  · intro hna habs
    constructor
    · simp only [typedGet, if_neg hna, habs]
    · simp only [requiredGet, if_neg hna, habs]
  · intro raw hraw
    by_cases hna : 1 < st.prefixes.length ∧ pp = none
    · exfalso
      rw [hna.2, lookup_of_multi st hna.1 name] at hraw
      exact Option.noConfusion hraw
    · constructor
      · simp only [requiredGet, if_neg hna, hraw]
        cases hp : parse (if isBool then normalize_bool raw else raw) <;>
          simp [hp]
      · intro hparse
        simp only [requiredGet, if_neg hna, hraw, hparse]

/-- C3 witness: the spec's Scenarios B and F on a concrete empty store. -/
theorem absent_default_amended_witness :
    typedGet (EnvStore.from_map []) "PORT" none (8080 : Nat) []
      (parseUnsigned 65535) false = .ok 8080 ∧
    requiredGet (EnvStore.from_map []) "PORT" none (parseUnsigned 65535)
      false = (.error (.notSet "PORT") : Except EnvflagError Nat) :=
  (absent_default_amended (EnvStore.from_map []) "PORT" none 8080 []
    (parseUnsigned 65535) false).1 (by decide) rfl

/-! ### C4: the validator chain -/

/-- C4: with a present value the validators are run against the
(boolean-normalized, when the target type is `bool`) string and any
failure produces `ValidationFailed` carrying that string; when the key is
absent the validators never run (the result is the same as with no
validators at all); and the spec's Scenario E holds: `{"PORT": "0"}` with
`is_port` fails with `ValidationFailed{PORT, 0}`. -/
theorem validator_chain_behaviour {T : Type} (st : EnvStore) (name : String)
    (pp : Option String) (d : T) (vs : List (String → Bool))
    (parse : String → Option T) (isBool : Bool) :
    (∀ raw, st.lookup name pp = some raw →
      vs.all (fun v => v (if isBool then normalize_bool raw else raw))
        = false →
      typedGet st name pp d vs parse isBool =
        .error (.validationFailed name
          (if isBool then normalize_bool raw else raw))) ∧
    (st.lookup name pp = none →
      typedGet st name pp d vs parse isBool =
        typedGet st name pp d [] parse isBool) ∧
    typedGet (EnvStore.from_map [("PORT", "0")]) "PORT" none (3000 : Nat)
      [is_port] (parseUnsigned 65535) false =
      .error (.validationFailed "PORT" "0") := by
  refine ⟨?_, ?_, by decide⟩
  · intro raw hraw hall
    by_cases hna : 1 < st.prefixes.length ∧ pp = none
    · exfalso
      rw [hna.2, lookup_of_multi st hna.1 name] at hraw
      exact Option.noConfusion hraw
    · simp only [typedGet, if_neg hna, hraw, hall]
      simp
  · intro habs
    by_cases hna : 1 < st.prefixes.length ∧ pp = none
    · simp only [typedGet, if_pos hna]
    · simp only [typedGet, if_neg hna, habs]

/-- C4 witness: the validator-failure case applied at the spec's
Scenario E input. -/
theorem validator_chain_behaviour_witness :
    typedGet (EnvStore.from_map [("PORT", "0")]) "PORT" none (3000 : Nat)
      [is_port] (parseUnsigned 65535) false =
      .error (.validationFailed "PORT" "0") :=
  (validator_chain_behaviour (EnvStore.from_map [("PORT", "0")]) "PORT"
    none 3000 [is_port] (parseUnsigned 65535) false).1 "0" rfl (by decide)

/-! ### C5: numeric round-trip -/

/-- C5: round-trip — for every no-prefix store whose entries map `key` to
the `to_string` rendering of a value of a supported numeric type, the
typed query on `key` with any default returns the value itself.  Stated
first generically, for any target type whose parse/print pair round-trips
(`parse (toStr v) = some v`, the `FromStr`/`Display` contract of the
spec's parsable-value capability; for `f64` that contract is the standard
library's documented shortest-round-trip formatting, an external
collaborator), and then unconditionally, digit by digit, for every
unsigned width (the type's maximum passed as `bound`) and every signed
width (`negBound`/`posBound` the magnitude bounds; `i64` is
`parseSigned (2 ^ 63) (2 ^ 63 - 1)`). -/
theorem numeric_round_trip :
    (∀ (T : Type) (parse : String → Option T) (toStr : T → String) (v : T)
      (st : EnvStore) (key : String) (other : T),
      st.prefixes = [] → mapGet st.map key = some (toStr v) →
      parse (toStr v) = some v →
      typedGet st key none other [] parse false = .ok v) ∧
    (∀ (bound v : Nat) (st : EnvStore) (key : String) (other : Nat),
      st.prefixes = [] → mapGet st.map key = some (natToString v) →
      v ≤ bound →
      typedGet st key none other [] (parseUnsigned bound) false = .ok v) ∧
    (∀ (negBound posBound : Nat) (v : Int) (st : EnvStore) (key : String)
      (other : Int),
      st.prefixes = [] → mapGet st.map key = some (intToString v) →
      -(negBound : Int) ≤ v → v ≤ (posBound : Int) →
      typedGet st key none other [] (parseSigned negBound posBound) false
        = .ok v) := by
  have engine : ∀ (T : Type) (parse : String → Option T)
      (toStr : T → String) (v : T) (st : EnvStore) (key : String)
      (other : T),
      st.prefixes = [] → mapGet st.map key = some (toStr v) →
      parse (toStr v) = some v →
      typedGet st key none other [] parse false = .ok v := by
    intro T parse toStr v st key other hpre hmap hrt
    have hl : st.lookup key none = some (toStr v) := by
      rw [lookup_of_no_prefixes st hpre key none, hmap]
    simp [typedGet, hpre, hl, hrt]
  refine ⟨engine, ?_, ?_⟩
  · intro bound v st key other hpre hmap h
    exact engine Nat (parseUnsigned bound) natToString v st key other hpre
      hmap (parseUnsigned_natToString bound v h)
  · intro negBound posBound v st key other hpre hmap hlo hhi
    exact engine Int (parseSigned negBound posBound) intToString v st key
      other hpre hmap (parseSigned_intToString negBound posBound v hlo hhi)

/-- C5 witness: the spec's Scenario A (`u16`, value `3000`, default
`8080`) on a store with an extra unrelated entry, an `i16` value `-45`,
and the `i64` minimum, with the `to_string` renderings evaluated. -/
theorem numeric_round_trip_witness :
    (natToString 3000 = "3000" ∧ intToString (-45) = "-45") ∧
    typedGet (EnvStore.from_map
        [("HOST", "localhost"), ("PORT", natToString 3000)])
      "PORT" none (8080 : Nat) [] (parseUnsigned 65535) false = .ok 3000 ∧
    typedGet (EnvStore.from_map [("N", intToString (-45)), ("OTHER", "x")])
      "N" none (0 : Int) [] (parseSigned (2 ^ 15) (2 ^ 15 - 1)) false
      = .ok (-45) ∧
    typedGet (EnvStore.from_map [("M", intToString (-9223372036854775808))])
      "M" none (0 : Int) [] parseI64 false = .ok (-9223372036854775808) :=
  ⟨⟨by decide, by decide⟩,
    numeric_round_trip.2.1 65535 3000 _ "PORT" 8080 rfl (by decide)
      (by decide),
    numeric_round_trip.2.2 (2 ^ 15) (2 ^ 15 - 1) (-45) _ "N" 0 rfl
      (by decide) (by decide) (by decide),
    numeric_round_trip.2.2 (2 ^ 63) (2 ^ 63 - 1) (-9223372036854775808) _
      "M" 0 rfl rfl (by decide) (by decide)⟩

/-! ### C6: one-time initialization -/

theorem runInits_of_populated (occupant : EnvStore) (l : List EnvStore) :
    runInits (some occupant) l =
      (some occupant, l.map (fun _ => .error .alreadyInitialized)) := by
  induction l with
  | nil => rfl
  | cons st rest ih => simp [runInits, onceSet, ih]

/-- C6: the global slot transitions empty → populated exactly once: a
publish against a populated slot fails with `AlreadyInitialized` and
leaves the occupant untouched, and for any sequence of initialization
attempts the first one wins, every later one fails with
`AlreadyInitialized`, and every read of the final slot observes the first
store. -/
theorem once_only_initialization :
    (∀ occupant newSt : EnvStore, onceSet (some occupant) newSt =
      (some occupant, .error .alreadyInitialized)) ∧
    (∀ (first : EnvStore) (rest : List EnvStore),
      runInits none (first :: rest) =
        (some first,
          .ok () :: rest.map (fun _ => .error .alreadyInitialized)) ∧
      get_instance (runInits none (first :: rest)).1 = .ok first) := by
  refine ⟨fun occupant newSt => rfl, fun first rest => ?_⟩
  have h : runInits none (first :: rest) =
      (some first,
        .ok () :: rest.map (fun _ => .error .alreadyInitialized)) := by
    simp [runInits, onceSet, runInits_of_populated]
  exact ⟨h, by rw [h]; rfl⟩

/-! ### C7: the convenience layer never surfaces an error -/

/-- C7: the convenience accessors are total: `get` returns the supplied
default whenever the raw lookup is absent, whenever the (possibly
normalized) value fails to parse, and whenever more than one prefix is
configured (the `AmbiguousPrefix` condition is silently collapsed into
the default); `lookup_parsed` returns `none` and `get_string` returns its
default in the corresponding cases. -/
theorem convenience_layer_collapses_errors {T : Type} (st : EnvStore)
    (name : String) (d : T) (parse : String → Option T) (isBool : Bool) :
    (st.lookup name none = none → EnvStore.get st name d parse isBool = d) ∧
    (∀ raw, st.lookup name none = some raw →
      parse (if isBool then normalize_bool raw else raw) = none →
      EnvStore.get st name d parse isBool = d) ∧
    (1 < st.prefixes.length → EnvStore.get st name d parse isBool = d) ∧
    (st.lookup name none = none →
      EnvStore.lookup_parsed st name parse isBool = none) ∧
    (∀ raw, st.lookup name none = some raw →
      parse (if isBool then normalize_bool raw else raw) = none →
      EnvStore.lookup_parsed st name parse isBool = none) ∧
    (1 < st.prefixes.length →
      EnvStore.lookup_parsed st name parse isBool = none) ∧
    (∀ dflt : String, st.lookup name none = none →
      EnvStore.get_string st name dflt = dflt) := by
  refine ⟨?_, ?_, ?_, ?_, ?_, ?_, ?_⟩
  · intro h; simp only [EnvStore.get, h]
  · intro raw h hp; simp only [EnvStore.get, h, hp]
  · intro h
    simp only [EnvStore.get, lookup_of_multi st h name]
  · intro h; simp [EnvStore.lookup_parsed, h]
  · intro raw h hp; simp [EnvStore.lookup_parsed, h, hp]
  · intro h
    simp [EnvStore.lookup_parsed, lookup_of_multi st h name]
  · intro dflt h; simp only [EnvStore.get_string, h, Option.getD_none]

/-- C7 witness: the multi-prefix ambiguity silently collapses into the
default / `none` on a concrete store where both prefixed keys exist. -/
theorem convenience_layer_collapses_errors_witness :
    EnvStore.get (EnvStore.from_map_with_prefixes
        [("APP_PORT", "3000"), ("SVC_PORT", "4000")] ["APP_", "SVC_"])
      "PORT" (0 : Nat) (parseUnsigned 65535) false = 0 ∧
    EnvStore.lookup_parsed (EnvStore.from_map_with_prefixes
        [("APP_PORT", "3000"), ("SVC_PORT", "4000")] ["APP_", "SVC_"])
      "PORT" (parseUnsigned 65535) false = none :=
  ⟨(convenience_layer_collapses_errors _ "PORT" 0 (parseUnsigned 65535)
      false).2.2.1 (by decide),
    (convenience_layer_collapses_errors _ "PORT" 0 (parseUnsigned 65535)
      false).2.2.2.2.2.1 (by decide)⟩

/-! ### C8: the total boolean rule of the convenience accessor -/

/-- The rule the code actually implements for truthiness: after trimming
whitespace, the ASCII-case-insensitive comparison against `true`, `1` or
`yes`. -/
def truthy (s : String) : Bool :=
  decide (asciiLower (trimStr s) = "true" ∨ asciiLower (trimStr s) = "1" ∨
    asciiLower (trimStr s) = "yes")

/-- Rendering of the claim's own rule for C8, from its words: the stored
raw value is case-insensitively `true`, `1` or `yes` — with no trimming. -/
def claimBoolRule (s : String) : Bool :=
  decide (asciiLower s = "true" ∨ asciiLower s = "1" ∨ asciiLower s = "yes")

theorem parseBool_normalize_bool (s : String) :
    (match parseBool (normalize_bool s) with
      | some v => v
      | none => false) = truthy s := by
  unfold normalize_bool truthy
  by_cases c1 : asciiLower (trimStr s) = "true"
  · rw [if_pos c1, c1]; decide
  · by_cases c2 : asciiLower (trimStr s) = "false"
    · rw [if_neg c1, if_pos c2, c2]; decide
    · by_cases c3 : asciiLower (trimStr s) = "1" ∨ asciiLower (trimStr s) = "yes"
      · rcases c3 with h | h <;>
          rw [if_neg c1, if_neg c2, if_pos (by tauto), h] <;> decide
      · by_cases c4 : asciiLower (trimStr s) = "0" ∨ asciiLower (trimStr s) = "no"
        · have hr : ¬(asciiLower (trimStr s) = "true" ∨
              asciiLower (trimStr s) = "1" ∨
              asciiLower (trimStr s) = "yes") := by tauto
          rw [if_neg c1, if_neg c2, if_neg c3, if_pos c4,
            decide_eq_false hr]
          decide
        · have hr : ¬(asciiLower (trimStr s) = "true" ∨
              asciiLower (trimStr s) = "1" ∨
              asciiLower (trimStr s) = "yes") := by tauto
          rw [if_neg c1, if_neg c2, if_neg c3, if_neg c4,
            decide_eq_false hr]
          have hs : s ≠ "true" := by
            rintro rfl; exact c1 (by decide)
          rw [parseBool, if_neg hs]
          by_cases hf : s = "false"
          · rw [if_pos hf]
          · rw [if_neg hf]

/-- C8 counterexample: the accessor returns `true` for the stored raw
value `" true "`, which is not case-insensitively `"true"`, `"1"` or
`"yes"` (the code trims first; the claim's rule does not), so the claim's
"exactly when" fails. -/
theorem get_bool_rule_counterexample :
    get_bool (EnvStore.from_map [("K", " true ")]) "K" = true ∧
    mapGet (EnvStore.from_map [("K", " true ")]).map "K" = some " true " ∧
    claimBoolRule " true " = false := by
  refine ⟨by decide, rfl, by decide⟩

/-- C8 (amended): the accessor is total with no failure case and returns
`true` exactly when the stored raw value, after trimming whitespace, is
case-insensitively `true`, `1` or `yes`; everything else — the empty
string and absent keys included — gives `false`. -/
theorem get_bool_total_rule (st : EnvStore) (name : String) :
    get_bool st name = truthy ((st.lookup name none).getD "") := by
  unfold get_bool EnvStore.get
  cases h : st.lookup name none with
  | none => decide
  | some raw =>
    rw [Option.getD_some, ← parseBool_normalize_bool raw]
    cases hp : parseBool (normalize_bool raw) <;> simp [hp]

/-! ### C9: the construction-time filter invariant -/

/-- C9 counterexample: `EnvStore::from_map_with_prefixes` takes the map
verbatim, so a store with a non-empty prefix list can hold a key that
starts with none of the configured prefixes — the claim's "for every
store" fails on it. -/
theorem init_filter_invariant_counterexample :
    (EnvStore.from_map_with_prefixes [("X", "1")] ["APP_"]).prefixes ≠ [] ∧
    mapGet (EnvStore.from_map_with_prefixes [("X", "1")] ["APP_"]).map "X"
      = some "1" ∧
    ((EnvStore.from_map_with_prefixes [("X", "1")] ["APP_"]).prefixes.any
      (fun p => strStartsWith "X" p)) = false := by
  refine ⟨by decide, rfl, by decide⟩

/-- C9 (amended): every store built by the initializer's filtering step
(`InitBuilder::init`) with a non-empty prefix list satisfies the
invariant: each key kept in the map starts (case-sensitively) with at
least one configured prefix, stored under its original unshortened name.
Stores built by the direct test constructor can bypass the filter. -/
theorem init_filter_invariant (allVars : List (String × String))
    (pfxs : List String) (h : pfxs ≠ []) :
    ∀ kv ∈ (initStore allVars pfxs).map,
      pfxs.any (fun p => strStartsWith kv.1 p) = true := by
  intro kv hkv
  have he : pfxs.isEmpty = false := by simpa [List.isEmpty_iff] using h
  simp only [initStore, initFilter, he, Bool.false_eq_true, if_false] at hkv
  exact (List.mem_filter.mp hkv).2

/-- C9 witness: the invariant evaluated on a concrete snapshot where the
filter drops a non-matching key and keeps a matching one. -/
theorem init_filter_invariant_witness :
    (["APP_"].any (fun p => strStartsWith "APP_PORT" p)) = true :=
  init_filter_invariant [("APP_PORT", "1"), ("OTHER", "2")] ["APP_"]
    (by decide) ("APP_PORT", "1") (by decide)

/-! ### C10: an unconfigured override is honored verbatim -/

/-- C10: whenever at least one prefix is configured, a supplied preferred
prefix is prepended verbatim — `lookup k (some p)` is exactly the map
entry at `p ++ k`, with no check that `p` is among the configured
prefixes, so a misspelled override simply misses. -/
theorem explicit_pp_honored_verbatim (st : EnvStore)
    (h : st.prefixes ≠ []) (k p : String) :
    st.lookup k (some p) = mapGet st.map (p ++ k) :=
  lookup_of_some_pp st h k p

/-- C10 witness: an unconfigured, misspelled override on a single-prefix
store is used verbatim and misses. -/
theorem explicit_pp_honored_verbatim_witness :
    (EnvStore.from_map_with_prefixes [("APP_PORT", "3000")] ["APP_"]).lookup
      "PORT" (some "SVX_") = mapGet [("APP_PORT", "3000")] ("SVX_" ++ "PORT") ∧
    mapGet [("APP_PORT", "3000")] ("SVX_" ++ "PORT") = none :=
  ⟨explicit_pp_honored_verbatim _ (by decide) "PORT" "SVX_", rfl⟩

end Envflag
